import Mathlib

/-!
Verification of the real-time collaboration gateway of the
draw-together backend (src/websocket/whiteboard.gateway.ts and the
access-control service it consults, src/whiteboards service
findByIdWithAccess).

The gateway is embedded shallowly: its mutable Map/Set state becomes
explicit association lists, socket.io room registration becomes an
association list from room name to socket ids, and every handler is a
pure function from state (plus its environment: the board store and
the token verifier) to a new state and a list of emitted events.
-/

namespace DrawTogether

abbrev UserId := String
abbrev BoardId := String
abbrev SocketId := String

/-- Resolved identity attached to a socket after authentication
(client.data.user in the source). -/
structure User where
  id : UserId
  email : String
deriving DecidableEq, Repr

/-- One live connection: the transport-assigned socket id together with
the authenticated user bound to it. -/
structure Client where
  sid : SocketId
  user : User
deriving DecidableEq, Repr

/-- A whiteboard row as seen by the access check: its id, its owner and
the user ids of its accepted collaborators. -/
structure Board where
  id : BoardId
  ownerId : UserId
  collaboratorIds : List UserId
deriving DecidableEq, Repr

/-- The board store consulted by findByIdWithAccess. -/
structure Env where
  boards : List Board
deriving Repr

/-- hasAccess of WhiteboardsService: the owner always has access, and a
user found among the board collaborators has access. -/
def hasAccess (b : Board) (u : User) : Bool :=
  b.ownerId = u.id || b.collaboratorIds.contains u.id

/-- The two failure modes of findByIdWithAccess: NotFoundException when
no board has the requested id, ForbiddenException when the requester is
neither owner nor collaborator. -/
inductive AccessError where
  | notFound
  | forbidden
deriving DecidableEq, Repr

/-- error.message carried by each exception in the source. -/
def AccessError.message : AccessError → String
  | .notFound => "Whiteboard not found"
  | .forbidden => "You do not have permission to access this whiteboard"

/-- findByIdWithAccess of WhiteboardsService: look the board up, throw
NotFoundException when absent, throw ForbiddenException when hasAccess
is false, otherwise return the board. -/
def findByIdWithAccess (env : Env) (whiteboardId : BoardId) (u : User) :
    Except AccessError Board :=
  match env.boards.find? (fun b => b.id == whiteboardId) with
  | none => .error .notFound
  | some b => if hasAccess b u then .ok b else .error .forbidden

/-- Lookup in an association list, modelling Map.get. -/
def mapGet {α : Type} : List (String × α) → String → Option α
  | [], _ => none
  | (k1, v) :: rest, k => if k1 = k then some v else mapGet rest k

/-- Update or insert in an association list, modelling Map.set. -/
def mapSet {α : Type} : List (String × α) → String → α → List (String × α)
  | [], k, v => [(k, v)]
  | (k1, w) :: rest, k, v =>
      if k1 = k then (k1, v) :: rest else (k1, w) :: mapSet rest k v

/-- Remove a key, modelling Map.delete. -/
def mapDelete {α : Type} (m : List (String × α)) (k : String) :
    List (String × α) :=
  m.filter (fun p => p.1 ≠ k)

/-- Set.add on a set represented as a duplicate-free list in insertion
order. -/
def setAdd (s : List String) (x : String) : List String :=
  if x ∈ s then s else s ++ [x]

/-- Set.delete. -/
def setDel (s : List String) (x : String) : List String :=
  s.filter (fun y => y ≠ x)

/-- Gateway state: the userRooms Map (userId to the set of joined board
ids) plus the transport room registry (room name to the socket ids
currently registered in that room). -/
structure GatewayState where
  userRooms : List (UserId × List BoardId)
  rooms : List (String × List SocketId)
deriving DecidableEq, Repr

/-- Socket ids currently registered in a transport room. -/
def roomMembers (rooms : List (String × List SocketId)) (r : String) :
    List SocketId :=
  (mapGet rooms r).getD []

/-- client.join(roomName): register the socket in the room. -/
def roomJoin (rooms : List (String × List SocketId)) (r : String)
    (sid : SocketId) : List (String × List SocketId) :=
  mapSet rooms r (setAdd (roomMembers rooms r) sid)

/-- client.leave(roomName): remove the socket from the room, a no-op
when the room does not exist. -/
def roomLeave (rooms : List (String × List SocketId)) (r : String)
    (sid : SocketId) : List (String × List SocketId) :=
  match mapGet rooms r with
  | none => rooms
  | some l => mapSet rooms r (setDel l sid)

/-- The identity's current membership set (empty when the table has no
entry for it). -/
def membershipOf (st : GatewayState) (uid : UserId) : List BoardId :=
  (mapGet st.userRooms uid).getD []

/-- Canonical room name: whiteboard:${whiteboardId}. -/
def roomNameOf (whiteboardId : BoardId) : String :=
  "whiteboard:" ++ whiteboardId

/-- Every server-to-client event the gateway can emit, one constructor
per event name, fields matching the emitted object. -/
inductive ServerEvent where
  | joinedWhiteboard (success : Bool) (whiteboardId : BoardId) (message : String)
  | joinError (success : Bool) (whiteboardId : BoardId) (message : String)
  | userJoined (userId : UserId) (userEmail : String) (whiteboardId : BoardId)
  | drawUpdate (whiteboardId : BoardId) (updateType : String)
      (data : Option String) (userId : UserId) (timestamp : Nat)
  | drawUpdateError (success : Bool) (whiteboardId : BoardId) (message : String)
  | userLeft (userId : UserId) (userEmail : String) (whiteboardId : BoardId)
  | leftWhiteboard (success : Bool) (whiteboardId : BoardId) (message : String)
deriving DecidableEq, Repr

/-- An emission instruction: client.emit sends privately to the sender,
client.to(room).emit sends to every socket in the room except the
sender. -/
inductive Emit where
  | toSender (sid : SocketId) (ev : ServerEvent)
  | toRoomExceptSender (room : String) (sender : SocketId) (ev : ServerEvent)
deriving DecidableEq, Repr

/-- Delivery semantics of the transport: a private emit reaches exactly
the sender socket; a room emit reaches every socket registered in that
room other than the sender. -/
def deliveredTo (rooms : List (String × List SocketId)) : Emit → List SocketId
  | .toSender sid _ => [sid]
  | .toRoomExceptSender r sender _ =>
      (roomMembers rooms r).filter (fun s => s ≠ sender)

/-- handleJoinWhiteboard: check access via findByIdWithAccess; on
failure emit only a private join_error carrying the error message; on
success join the canonical room, add the board to the membership set
(creating the entry when absent), then emit a private joined_whiteboard
ack and a user_joined broadcast to the other room members. The room
size computed in the source feeds only log lines and is omitted. -/
def handleJoinWhiteboard (env : Env) (st : GatewayState) (client : Client)
    (whiteboardId : BoardId) : GatewayState × List Emit :=
  match findByIdWithAccess env whiteboardId client.user with
  | .error e =>
      (st, [Emit.toSender client.sid (.joinError false whiteboardId e.message)])
  | .ok _ =>
      let roomName := roomNameOf whiteboardId
      let rooms1 := roomJoin st.rooms roomName client.sid
      let userRooms1 :=
        mapSet st.userRooms client.user.id
          (setAdd (membershipOf st client.user.id) whiteboardId)
      ({ userRooms := userRooms1, rooms := rooms1 },
       [Emit.toSender client.sid
          (.joinedWhiteboard true whiteboardId "Successfully joined whiteboard"),
        Emit.toRoomExceptSender roomName client.sid
          (.userJoined client.user.id client.user.email whiteboardId)])

/-- handleDrawUpdate: when the sender's membership set lacks the board,
first run handleJoinWhiteboard (which catches its own failures, so
control always continues); then unconditionally broadcast the
draw_update, tagged with the sender's user id and the server timestamp,
to the room excluding the sender. The catch branch that would emit
draw_update_error is reachable only through transport-level throws,
which the embedding does not model. -/
def handleDrawUpdate (env : Env) (st : GatewayState) (client : Client)
    (whiteboardId : BoardId) (updateType : String) (data : Option String)
    (now : Nat) : GatewayState × List Emit :=
  let roomName := roomNameOf whiteboardId
  let pre :=
    if whiteboardId ∈ membershipOf st client.user.id then (st, ([] : List Emit))
    else handleJoinWhiteboard env st client whiteboardId
  (pre.1,
   pre.2 ++ [Emit.toRoomExceptSender roomName client.sid
      (.drawUpdate whiteboardId updateType data client.user.id now)])

/-- handleLeaveWhiteboard: always leave the canonical room, delete the
board from the membership set when an entry exists, then broadcast
user_left to the room and send the sender a left_whiteboard success
ack. Nothing in the handler is conditional on prior membership. -/
def handleLeaveWhiteboard (st : GatewayState) (client : Client)
    (whiteboardId : BoardId) : GatewayState × List Emit :=
  let roomName := roomNameOf whiteboardId
  let rooms1 := roomLeave st.rooms roomName client.sid
  let userRooms1 :=
    match mapGet st.userRooms client.user.id with
    | none => st.userRooms
    | some s => mapSet st.userRooms client.user.id (setDel s whiteboardId)
  ({ userRooms := userRooms1, rooms := rooms1 },
   [Emit.toRoomExceptSender roomName client.sid
      (.userLeft client.user.id client.user.email whiteboardId),
    Emit.toSender client.sid
      (.leftWhiteboard true whiteboardId "Successfully left whiteboard")])

/-- handleDisconnect: a no-op for an unauthenticated client; otherwise,
for every board id in the membership entry, call client.leave with the
bare board id (exactly as the source does: it passes roomId, not the
whiteboard-prefixed canonical name), then delete the whole entry. -/
def handleDisconnect (st : GatewayState) (guardUser : Option User)
    (sid : SocketId) : GatewayState :=
  match guardUser with
  | none => st
  | some u =>
      if u.id = "" then st
      else
        match mapGet st.userRooms u.id with
        | none => st
        | some s =>
            { userRooms := mapDelete st.userRooms u.id,
              rooms := s.foldl (fun rs roomId => roomLeave rs roomId sid) st.rooms }

/-- The fields of a socket.io handshake that token extraction inspects:
handshake.auth.token, handshake.query.token (when it is a single
string), the cookie header and the authorization header. -/
structure Handshake where
  authToken : Option String
  queryToken : Option String
  cookie : Option String
  authorization : Option String
deriving DecidableEq, Repr

/-- JavaScript truthiness of an optional string field: undefined and the
empty string are both falsy, so a source guarded by a plain if skips
them. -/
def presentToken : Option String → Option String
  | none => none
  | some s => if s = "" then none else some s

/-- Characters matched by the regex fragment of one or more non-semicolon
characters. -/
def takeUntilSemicolon : List Char → List Char
  | [] => []
  | c :: cs => if c = ';' then [] else c :: takeUntilSemicolon cs

/-- Left-to-right scan of the regex of the literal text token= followed
by at least one non-semicolon character: at each position, match the
literal and a non-empty capture, otherwise advance one character. -/
def cookieTokenSearch : List Char → Option String
  | [] => none
  | c :: cs =>
      if List.isPrefixOf ("token=".toList) (c :: cs) then
        let captured := takeUntilSemicolon (List.drop 6 (c :: cs))
        if captured = [] then cookieTokenSearch cs
        else some (String.mk captured)
      else cookieTokenSearch cs

/-- cookies.match against the token pattern, returning the first capture
group. -/
def cookieTokenMatch (cookies : String) : Option String :=
  cookieTokenSearch cookies.toList

/-- The authorization-header step: present and starting with the Bearer
prefix yields the substring after the first seven characters. -/
def bearerOf : Option String → Option String
  | none => none
  | some s => if "Bearer ".isPrefixOf s then some (s.drop 7) else none

/-- extractTokenFromHandshake: try handshake.auth.token, then the query
token, then the cookie pattern, then the Authorization Bearer header,
in that order; the first truthy source wins and total absence yields
null. -/
def extractTokenFromHandshake (h : Handshake) : Option String :=
  match presentToken h.authToken with
  | some t => some t
  | none =>
      match presentToken h.queryToken with
      | some q => some q
      | none =>
          match (presentToken h.cookie).bind cookieTokenMatch with
          | some t => some t
          | none => bearerOf h.authorization

/-- The token-verification and user-lookup services: jwtService
verifyAsync resolving to the subject claim (none models a throw), and
usersService findById. -/
structure AuthEnv where
  verifyToken : String → Option UserId
  findUserById : UserId → Option User

/-- authenticateClient: extract the token, verify it, look the subject
up; any failure yields null. -/
def authenticateClient (aenv : AuthEnv) (h : Handshake) : Option User :=
  match extractTokenFromHandshake h with
  | none => none
  | some token =>
      match aenv.verifyToken token with
      | none => none
      | some sub => aenv.findUserById sub

/-- Outcome of handleConnection: the connection is kept with a resolved
user, or client.disconnect() is called. -/
inductive ConnResult where
  | accepted (u : User)
  | rejected
deriving DecidableEq, Repr

/-- The userRooms initialization step of handleConnection: create an
empty membership entry only when the identity has none yet. -/
def initUserEntry (st : GatewayState) (uid : UserId) : GatewayState :=
  match mapGet st.userRooms uid with
  | some _ => st
  | none => { st with userRooms := mapSet st.userRooms uid [] }

/-- handleConnection: accept the guard-attached user when it is truthy
with a truthy id, otherwise fall back to manual authentication;
disconnect when that fails, and on success initialize the membership
entry idempotently. -/
def handleConnection (aenv : AuthEnv) (st : GatewayState)
    (guardUser : Option User) (h : Handshake) : GatewayState × ConnResult :=
  let pre :=
    match guardUser with
    | some u => if u.id = "" then none else some u
    | none => none
  match pre with
  | some u => (initUserEntry st u.id, .accepted u)
  | none =>
      match authenticateClient aenv h with
      | none => (st, .rejected)
      | some u => (initUserEntry st u.id, .accepted u)

/-- A Join or Leave request by one identity, for replaying sequences of
room operations. -/
inductive Op where
  | join (b : BoardId)
  | leave (b : BoardId)
deriving DecidableEq, Repr

/-- Run one operation through the corresponding gateway handler, keeping
the resulting state. -/
def runOp (env : Env) (client : Client) (st : GatewayState) : Op → GatewayState
  | .join b => (handleJoinWhiteboard env st client b).1
  | .leave b => (handleLeaveWhiteboard st client b).1

/-- Run a sequence of Join/Leave operations through the handlers. -/
def runOps (env : Env) (client : Client) (st : GatewayState)
    (ops : List Op) : GatewayState :=
  ops.foldl (runOp env client) st

/-- One step of the logical replay written from the specification's
words: a Join inserts the board into the set, a Leave removes it. -/
def replayStep (acc : List BoardId) : Op → List BoardId
  | .join b => setAdd acc b
  | .leave b => setDel acc b

/-- Logical replay of a Join/Leave sequence as the specification
describes it: the set of boards joined and not subsequently left. This
definition follows the specification's words, to be compared with the
state the handlers actually produce. -/
def replaySpec (s : List BoardId) (ops : List Op) : List BoardId :=
  ops.foldl replayStep s

/-- A concrete board owned by user uA with no collaborators. -/
def boardB1 : Board := ⟨"b1", "uA", []⟩

/-- A concrete environment holding only boardB1. -/
def envA : Env := ⟨[boardB1]⟩

/-- The owner's connection. -/
def clientA : Client := ⟨"sA", ⟨"uA", "alice@example.com"⟩⟩

/-- A connection of a user with no access to boardB1. -/
def clientB : Client := ⟨"sB", ⟨"uB", "bob@example.com"⟩⟩

/-- The state after the owner joined boardB1 from the empty state. -/
def stJoinedA : GatewayState := (handleJoinWhiteboard envA ⟨[], []⟩ clientA "b1").1

theorem mapGet_mapSet_self {α : Type} (m : List (String × α)) (k : String) (v : α) :
    mapGet (mapSet m k v) k = some v := by
  induction m with
  | nil => simp [mapGet, mapSet]
  | cons hd tl ih =>
      obtain ⟨k1, w⟩ := hd
      by_cases h : k1 = k
      · simp [mapGet, mapSet, h]
      · simp [mapGet, mapSet, h, ih]

theorem mapGet_mapSet_ne {α : Type} (m : List (String × α)) (k k1 : String) (v : α)
    (h : k1 ≠ k) : mapGet (mapSet m k v) k1 = mapGet m k1 := by
  induction m with
  | nil => simp [mapGet, mapSet, Ne.symm h]
  | cons hd tl ih =>
      obtain ⟨a, w⟩ := hd
      by_cases ha : a = k
      · subst ha
        simp [mapGet, mapSet, Ne.symm h]
      · by_cases hak : a = k1
        · simp [mapGet, mapSet, ha, hak, h]
        · simp [mapGet, mapSet, ha, hak, ih]

theorem mem_setAdd_self (s : List String) (x : String) : x ∈ setAdd s x := by
  unfold setAdd
  split
  · assumption
  · simp

theorem not_mem_setDel_self (s : List String) (x : String) : x ∉ setDel s x := by
  simp [setDel]

theorem mem_roomJoin_self (rooms : List (String × List SocketId)) (r : String)
    (sid : SocketId) : sid ∈ roomMembers (roomJoin rooms r sid) r := by
  simp [roomJoin, roomMembers, mapGet_mapSet_self]
  exact mem_setAdd_self _ _

theorem not_mem_roomLeave_self (rooms : List (String × List SocketId)) (r : String)
    (sid : SocketId) : sid ∉ roomMembers (roomLeave rooms r sid) r := by
  unfold roomLeave
  cases hm : mapGet rooms r with
  | none => simp [roomMembers, hm]
  | some l =>
      simp [roomMembers, mapGet_mapSet_self]
      exact not_mem_setDel_self l sid

theorem handleJoin_ok_spec (env : Env) (st : GatewayState) (client : Client)
    (whiteboardId : BoardId) (bd : Board)
    (hacc : findByIdWithAccess env whiteboardId client.user = .ok bd) :
    handleJoinWhiteboard env st client whiteboardId
      = ({ userRooms := mapSet st.userRooms client.user.id
              (setAdd (membershipOf st client.user.id) whiteboardId),
           rooms := roomJoin st.rooms (roomNameOf whiteboardId) client.sid },
         [Emit.toSender client.sid
            (.joinedWhiteboard true whiteboardId "Successfully joined whiteboard"),
          Emit.toRoomExceptSender (roomNameOf whiteboardId) client.sid
            (.userJoined client.user.id client.user.email whiteboardId)]) := by
  unfold handleJoinWhiteboard
  rw [hacc]

theorem membershipOf_join_ok (env : Env) (st : GatewayState) (client : Client)
    (whiteboardId : BoardId) (bd : Board)
    (hacc : findByIdWithAccess env whiteboardId client.user = .ok bd) :
    membershipOf (handleJoinWhiteboard env st client whiteboardId).1 client.user.id
      = setAdd (membershipOf st client.user.id) whiteboardId := by
  rw [handleJoin_ok_spec env st client whiteboardId bd hacc]
  simp [membershipOf, mapGet_mapSet_self]

theorem membershipOf_leave (st : GatewayState) (client : Client)
    (whiteboardId : BoardId) :
    membershipOf (handleLeaveWhiteboard st client whiteboardId).1 client.user.id
      = setDel (membershipOf st client.user.id) whiteboardId := by
  unfold handleLeaveWhiteboard
  cases hm : mapGet st.userRooms client.user.id with
  | none => simp [membershipOf, hm, setDel]
  | some s => simp [membershipOf, hm, mapGet_mapSet_self]

theorem membership_replay (env : Env) (client : Client) (ops : List Op) :
    ∀ st : GatewayState,
      (∀ b, Op.join b ∈ ops → ∃ bd, findByIdWithAccess env b client.user = .ok bd) →
      membershipOf (runOps env client st ops) client.user.id
        = replaySpec (membershipOf st client.user.id) ops := by
  induction ops with
  | nil => intro st hacc; simp [runOps, replaySpec]
  | cons op rest ih =>
      intro st hacc
      have hrest : ∀ b, Op.join b ∈ rest →
          ∃ bd, findByIdWithAccess env b client.user = .ok bd :=
        fun b hb => hacc b (List.mem_cons_of_mem _ hb)
      cases op with
      | join b =>
          obtain ⟨bd, hbd⟩ := hacc b (List.mem_cons_self _ _)
          calc membershipOf (runOps env client st (Op.join b :: rest)) client.user.id
              = membershipOf
                  (runOps env client (handleJoinWhiteboard env st client b).1 rest)
                  client.user.id := rfl
            _ = replaySpec
                  (membershipOf (handleJoinWhiteboard env st client b).1 client.user.id)
                  rest := ih _ hrest
            _ = replaySpec (setAdd (membershipOf st client.user.id) b) rest := by
                  rw [membershipOf_join_ok env st client b bd hbd]
            _ = replaySpec (membershipOf st client.user.id) (Op.join b :: rest) := rfl
      | leave b =>
          calc membershipOf (runOps env client st (Op.leave b :: rest)) client.user.id
              = membershipOf
                  (runOps env client (handleLeaveWhiteboard st client b).1 rest)
                  client.user.id := rfl
            _ = replaySpec
                  (membershipOf (handleLeaveWhiteboard st client b).1 client.user.id)
                  rest := ih _ hrest
            _ = replaySpec (setDel (membershipOf st client.user.id) b) rest := by
                  rw [membershipOf_leave st client b]
            _ = replaySpec (membershipOf st client.user.id) (Op.leave b :: rest) := rfl

theorem handleDraw_notmem_spec (env : Env) (st : GatewayState) (client : Client)
    (whiteboardId : BoardId) (updateType : String) (data : Option String) (now : Nat)
    (hmem : whiteboardId ∉ membershipOf st client.user.id) :
    handleDrawUpdate env st client whiteboardId updateType data now
      = ((handleJoinWhiteboard env st client whiteboardId).1,
         (handleJoinWhiteboard env st client whiteboardId).2
           ++ [Emit.toRoomExceptSender (roomNameOf whiteboardId) client.sid
                 (.drawUpdate whiteboardId updateType data client.user.id now)]) := by
  unfold handleDrawUpdate
  rw [if_neg hmem]

theorem handleDraw_mem_spec (env : Env) (st : GatewayState) (client : Client)
    (whiteboardId : BoardId) (updateType : String) (data : Option String) (now : Nat)
    (hmem : whiteboardId ∈ membershipOf st client.user.id) :
    handleDrawUpdate env st client whiteboardId updateType data now
      = (st, [Emit.toRoomExceptSender (roomNameOf whiteboardId) client.sid
                (.drawUpdate whiteboardId updateType data client.user.id now)]) := by
  unfold handleDrawUpdate
  rw [if_pos hmem]
  rfl

theorem mapGet_initUserEntry (st : GatewayState) (vid uid : UserId) (s : List BoardId)
    (hmem : mapGet st.userRooms uid = some s) :
    mapGet (initUserEntry st vid).userRooms uid = some s := by
  unfold initUserEntry
  cases hv : mapGet st.userRooms vid with
  | some w => exact hmem
  | none =>
      have hne : uid ≠ vid := by
        intro he
        rw [he] at hmem
        rw [hmem] at hv
        cases hv
      simp only []
      rw [mapGet_mapSet_ne st.userRooms vid uid [] hne]
      exact hmem

/-- Claim C2: when the access check for a board and a user fails, the
join handler returns the state unchanged (so the user is registered
neither in the membership table nor in the transport room) and emits
exactly one private join_error acknowledgement to the sender, carrying
the failure message, with no broadcast to anyone else. -/
theorem join_denied_no_registration (env : Env) (st : GatewayState)
    (client : Client) (whiteboardId : BoardId) (e : AccessError)
    (h : findByIdWithAccess env whiteboardId client.user = .error e) :
    handleJoinWhiteboard env st client whiteboardId
      = (st, [Emit.toSender client.sid (.joinError false whiteboardId e.message)]) := by
  unfold handleJoinWhiteboard
  rw [h]

/-- Witness for the denied-join frame theorem: a join against an empty
board store is refused with a not-found message and leaves the empty
state untouched. -/
theorem join_denied_no_registration_witness :
    handleJoinWhiteboard ⟨[]⟩ ⟨[], []⟩ ⟨"s1", ⟨"u1", "u1@example.com"⟩⟩ "b9"
      = (⟨[], []⟩,
         [Emit.toSender "s1" (.joinError false "b9" AccessError.notFound.message)]) :=
  join_denied_no_registration ⟨[]⟩ ⟨[], []⟩ ⟨"s1", ⟨"u1", "u1@example.com"⟩⟩
    "b9" .notFound rfl

/-- Claim C4: a DrawUpdate sent by a user with access whose membership
set does not yet contain the board self-heals: afterwards the socket is
registered in the canonical room, the board is in the membership set,
and the draw event is emitted to the other room members. -/
theorem drawUpdate_self_heal (env : Env) (st : GatewayState) (client : Client)
    (whiteboardId : BoardId) (updateType : String) (data : Option String)
    (now : Nat) (bd : Board)
    (hacc : findByIdWithAccess env whiteboardId client.user = .ok bd)
    (hmem : whiteboardId ∉ membershipOf st client.user.id) :
    client.sid ∈ roomMembers
        (handleDrawUpdate env st client whiteboardId updateType data now).1.rooms
        (roomNameOf whiteboardId)
    ∧ whiteboardId ∈ membershipOf
        (handleDrawUpdate env st client whiteboardId updateType data now).1
        client.user.id
    ∧ Emit.toRoomExceptSender (roomNameOf whiteboardId) client.sid
        (.drawUpdate whiteboardId updateType data client.user.id now)
      ∈ (handleDrawUpdate env st client whiteboardId updateType data now).2 := by
  rw [handleDraw_notmem_spec env st client whiteboardId updateType data now hmem,
    handleJoin_ok_spec env st client whiteboardId bd hacc]
  refine ⟨?_, ?_, ?_⟩
  · exact mem_roomJoin_self st.rooms (roomNameOf whiteboardId) client.sid
  · simp [membershipOf, mapGet_mapSet_self]
    exact mem_setAdd_self _ _
  · simp

/-- Witness for the self-heal theorem: the owner draws on its own board
before joining, and ends up registered with the event relayed. -/
theorem drawUpdate_self_heal_witness :
    "sA" ∈ roomMembers
        (handleDrawUpdate envA ⟨[], []⟩ clientA "b1" "stroke" none 7).1.rooms
        (roomNameOf "b1")
    ∧ "b1" ∈ membershipOf
        (handleDrawUpdate envA ⟨[], []⟩ clientA "b1" "stroke" none 7).1 "uA"
    ∧ Emit.toRoomExceptSender (roomNameOf "b1") "sA"
        (.drawUpdate "b1" "stroke" none "uA" 7)
      ∈ (handleDrawUpdate envA ⟨[], []⟩ clientA "b1" "stroke" none 7).2 :=
  drawUpdate_self_heal envA ⟨[], []⟩ clientA "b1" "stroke" none 7 boardB1
    rfl (by decide)

/-- Claim C5: a DrawUpdate by a user already in the room is relayed as a
single room broadcast that excludes the sender; the sender is never
among the recipients, and when the sender is the sole room member the
recipient set is empty while the output contains no error event for the
sender (the single emission is the relay itself). -/
theorem drawUpdate_excludes_sender (env : Env) (st : GatewayState)
    (client : Client) (whiteboardId : BoardId) (updateType : String)
    (data : Option String) (now : Nat)
    (hmem : whiteboardId ∈ membershipOf st client.user.id) :
    handleDrawUpdate env st client whiteboardId updateType data now
      = (st, [Emit.toRoomExceptSender (roomNameOf whiteboardId) client.sid
                (.drawUpdate whiteboardId updateType data client.user.id now)])
    ∧ client.sid ∉ deliveredTo st.rooms
        (Emit.toRoomExceptSender (roomNameOf whiteboardId) client.sid
           (.drawUpdate whiteboardId updateType data client.user.id now))
    ∧ (roomMembers st.rooms (roomNameOf whiteboardId) = [client.sid] →
        deliveredTo st.rooms
          (Emit.toRoomExceptSender (roomNameOf whiteboardId) client.sid
             (.drawUpdate whiteboardId updateType data client.user.id now)) = []) := by
  refine ⟨handleDraw_mem_spec env st client whiteboardId updateType data now hmem,
    ?_, ?_⟩
  · simp [deliveredTo]
  · intro hsingle
    simp [deliveredTo, hsingle]

/-- Witness for the sender-exclusion theorem: a sole editor's stroke is
relayed to nobody. -/
theorem drawUpdate_excludes_sender_witness :
    deliveredTo [("whiteboard:b1", ["s1"])]
      (Emit.toRoomExceptSender (roomNameOf "b1") "s1"
         (.drawUpdate "b1" "stroke" none "u1" 7)) = [] :=
  (drawUpdate_excludes_sender ⟨[]⟩ ⟨[("u1", ["b1"])], [("whiteboard:b1", ["s1"])]⟩
      ⟨"s1", ⟨"u1", "u1@example.com"⟩⟩ "b1" "stroke" none 7 (by decide)).2.2 (by decide)

/-- Claim C6: for any finite sequence of Join and Leave operations by a
single identity starting from an empty membership set, all Joins being
for accessible boards, the final membership set is exactly the logical
replay of the sequence (joins inserted, leaves removed), so no stale
membership survives a Leave. -/
theorem join_leave_replay (env : Env) (client : Client) (st : GatewayState)
    (ops : List Op)
    (hstart : membershipOf st client.user.id = [])
    (hacc : ∀ b, Op.join b ∈ ops → ∃ bd, findByIdWithAccess env b client.user = .ok bd) :
    membershipOf (runOps env client st ops) client.user.id = replaySpec [] ops := by
  rw [membership_replay env client ops st hacc, hstart]

/-- Witness for the replay theorem: joining two boards and leaving the
first ends with exactly the second board in the membership set. -/
theorem join_leave_replay_witness :
    membershipOf
      (runOps ⟨[⟨"b1", "u1", []⟩, ⟨"b2", "u1", []⟩]⟩ ⟨"s1", ⟨"u1", "u1@example.com"⟩⟩
        ⟨[], []⟩ [Op.join "b1", Op.join "b2", Op.leave "b1"]) "u1"
      = replaySpec [] [Op.join "b1", Op.join "b2", Op.leave "b1"] :=
  join_leave_replay ⟨[⟨"b1", "u1", []⟩, ⟨"b2", "u1", []⟩]⟩
    ⟨"s1", ⟨"u1", "u1@example.com"⟩⟩ ⟨[], []⟩
    [Op.join "b1", Op.join "b2", Op.leave "b1"] rfl
    (by
      intro b hb
      simp [Op.join.injEq] at hb
      rcases hb with h | h
      · subst h; exact ⟨⟨"b1", "u1", []⟩, rfl⟩
      · subst h; exact ⟨⟨"b2", "u1", []⟩, rfl⟩)

/-- Claim C7: Leave always removes the socket from the canonical room
and the board from the membership set, and acknowledges the sender with
a left_whiteboard success; since the statement holds for every starting
state, leaving a room never joined is a no-op success and the sender is
never sent an error (the success ack is the only private emission). -/
theorem leave_noop_success (st : GatewayState) (client : Client)
    (whiteboardId : BoardId) :
    client.sid ∉ roomMembers
        (handleLeaveWhiteboard st client whiteboardId).1.rooms
        (roomNameOf whiteboardId)
    ∧ whiteboardId ∉ membershipOf
        (handleLeaveWhiteboard st client whiteboardId).1 client.user.id
    ∧ Emit.toSender client.sid
        (.leftWhiteboard true whiteboardId "Successfully left whiteboard")
      ∈ (handleLeaveWhiteboard st client whiteboardId).2
    ∧ ∀ ev, Emit.toSender client.sid ev ∈ (handleLeaveWhiteboard st client whiteboardId).2 →
        ev = .leftWhiteboard true whiteboardId "Successfully left whiteboard" := by
  refine ⟨?_, ?_, ?_, ?_⟩
  · exact not_mem_roomLeave_self st.rooms (roomNameOf whiteboardId) client.sid
  · rw [membershipOf_leave st client whiteboardId]
    exact not_mem_setDel_self _ _
  · simp [handleLeaveWhiteboard]
  · intro ev hev
    simp [handleLeaveWhiteboard] at hev
    exact hev

/-- Witness for the Leave no-op-success theorem: on the empty state,
where the user never joined anything, the success ack is still sent. -/
theorem leave_noop_success_witness :
    Emit.toSender "s1" (ServerEvent.leftWhiteboard true "b1" "Successfully left whiteboard")
      ∈ (handleLeaveWhiteboard ⟨[], []⟩ ⟨"s1", ⟨"u1", "u1@example.com"⟩⟩ "b1").2 :=
  (leave_noop_success ⟨[], []⟩ ⟨"s1", ⟨"u1", "u1@example.com"⟩⟩ "b1").2.2.1

/-- Claim C10: for every state, Leave emits exactly the user_left room
broadcast followed by the left_whiteboard success acknowledgement;
nothing in the output depends on whether the identity was ever a member
of that board, so a no-op Leave is still announced to the room's
current members as a departure. -/
theorem leave_broadcast_unconditional (st : GatewayState) (client : Client)
    (whiteboardId : BoardId) :
    (handleLeaveWhiteboard st client whiteboardId).2
      = [Emit.toRoomExceptSender (roomNameOf whiteboardId) client.sid
           (.userLeft client.user.id client.user.email whiteboardId),
         Emit.toSender client.sid
           (.leftWhiteboard true whiteboardId "Successfully left whiteboard")] := rfl

/-- Claim C9: a successful connection by any identity never alters an
existing membership entry: whatever membership set a user already has
in the table is still there, unchanged, after handleConnection runs,
because the connect handler initializes an empty set only when no entry
exists. -/
theorem reconnect_preserves_membership (aenv : AuthEnv) (st : GatewayState)
    (guardUser : Option User) (h : Handshake) (uid : UserId) (s : List BoardId)
    (hmem : mapGet st.userRooms uid = some s) :
    mapGet (handleConnection aenv st guardUser h).1.userRooms uid = some s := by
  cases hg : guardUser with
  | none =>
      cases ha : authenticateClient aenv h with
      | none => simpa [handleConnection, ha] using hmem
      | some u =>
          simp only [handleConnection, ha]
          exact mapGet_initUserEntry st u.id uid s hmem
  | some u =>
      by_cases hid : u.id = ""
      · cases ha : authenticateClient aenv h with
        | none => simpa [handleConnection, hid, ha] using hmem
        | some w =>
            simp only [handleConnection, hid, ha, if_pos]
            exact mapGet_initUserEntry st w.id uid s hmem
      · simp only [handleConnection, hid, if_neg]
        exact mapGet_initUserEntry st u.id uid s hmem

/-- Witness for the reconnect-preservation theorem: a user with an
existing membership entry reconnects and the entry survives. -/
theorem reconnect_preserves_membership_witness :
    mapGet (handleConnection ⟨fun _ => none, fun _ => none⟩
        ⟨[("u1", ["b1"])], []⟩ (some ⟨"u1", "u1@example.com"⟩)
        ⟨none, none, none, none⟩).1.userRooms "u1" = some ["b1"] :=
  reconnect_preserves_membership ⟨fun _ => none, fun _ => none⟩
    ⟨[("u1", ["b1"])], []⟩ (some ⟨"u1", "u1@example.com"⟩)
    ⟨none, none, none, none⟩ "u1" ["b1"] rfl

/-- Claim C8: credential extraction tries the auth-handshake token, the
query token, the cookie token pattern and the Authorization Bearer
header in that order; a truthy higher-priority source is returned even
when every lower-priority source is also present, and when all four are
absent the result is null, which makes handleConnection reject the
connection when the guard attached no user. -/
theorem token_extraction_priority (h : Handshake) :
    (∀ t, h.authToken = some t → t ≠ "" → extractTokenFromHandshake h = some t)
    ∧ (presentToken h.authToken = none →
        ∀ q, h.queryToken = some q → q ≠ "" → extractTokenFromHandshake h = some q)
    ∧ (presentToken h.authToken = none → presentToken h.queryToken = none →
        ∀ c t, h.cookie = some c → cookieTokenMatch c = some t →
          extractTokenFromHandshake h = some t)
    ∧ (presentToken h.authToken = none → presentToken h.queryToken = none →
        (presentToken h.cookie).bind cookieTokenMatch = none →
        ∀ a, h.authorization = some a → "Bearer ".isPrefixOf a = true →
          extractTokenFromHandshake h = some (a.drop 7))
    ∧ (presentToken h.authToken = none → presentToken h.queryToken = none →
        (presentToken h.cookie).bind cookieTokenMatch = none →
        bearerOf h.authorization = none →
          extractTokenFromHandshake h = none
          ∧ ∀ aenv st, handleConnection aenv st none h = (st, ConnResult.rejected)) := by
  refine ⟨?_, ?_, ?_, ?_, ?_⟩
  · intro t ht hne
    unfold extractTokenFromHandshake
    rw [ht]
    simp [presentToken, hne]
  · intro hauth q hq hqne
    unfold extractTokenFromHandshake
    rw [hauth, hq]
    simp [presentToken, hqne]
  · intro hauth hquery c t hc hmatch
    by_cases hce : c = ""
    · subst hce
      rw [show cookieTokenMatch "" = none from rfl] at hmatch
      cases hmatch
    · unfold extractTokenFromHandshake
      rw [hauth, hquery, hc]
      simp [presentToken, hce, hmatch]
  · intro hauth hquery hcookie a ha hpre
    unfold extractTokenFromHandshake
    rw [hauth, hquery, hcookie]
    simp [bearerOf, ha, hpre]
  · intro hauth hquery hcookie hbearer
    have hext : extractTokenFromHandshake h = none := by
      unfold extractTokenFromHandshake
      rw [hauth, hquery, hcookie, hbearer]
    refine ⟨hext, ?_⟩
    intro aenv st
    simp [handleConnection, authenticateClient, hext]

/-- Witness for the extraction-priority theorem: with all four sources
present, the auth-handshake token wins. -/
theorem token_extraction_priority_witness :
    extractTokenFromHandshake ⟨some "a", some "q", some "token=c", some "Bearer d"⟩
      = some "a" :=
  (token_extraction_priority ⟨some "a", some "q", some "token=c", some "Bearer d"⟩).1
    "a" rfl (by decide)

/-- Claim C1 fails on the code: a user with no access to boardB1 sends a
DrawUpdate; the implicit Join is attempted and refused (the join_error
ack is emitted and the membership set still lacks the board), yet the
draw_update is broadcast to the room anyway, because the join handler
catches its own failure and the draw handler relays unconditionally
afterwards. The owner already in the room receives the event. -/
theorem drawUpdate_relayed_without_membership :
    membershipOf (handleDrawUpdate envA stJoinedA clientB "b1" "stroke" none 5).1 "uB" = []
    ∧ (handleDrawUpdate envA stJoinedA clientB "b1" "stroke" none 5).2
        = [Emit.toSender "sB" (.joinError false "b1" AccessError.forbidden.message),
           Emit.toRoomExceptSender "whiteboard:b1" "sB"
             (.drawUpdate "b1" "stroke" none "uB" 5)]
    ∧ deliveredTo (handleDrawUpdate envA stJoinedA clientB "b1" "stroke" none 5).1.rooms
        (Emit.toRoomExceptSender "whiteboard:b1" "sB"
           (.drawUpdate "b1" "stroke" none "uB" 5)) = ["sA"] := by
  refine ⟨?_, ?_, ?_⟩ <;> rfl

/-- Claim C3 fails on the code: the rooms are joined under the canonical
name (whiteboard: followed by the board id) but handleDisconnect calls
leave with the bare board id, so after the owner's disconnect the
membership entry is deleted while the socket is still registered in the
canonical room, the partial cleanup the specification forbids. -/
theorem disconnect_leaves_wrong_room :
    mapGet (handleDisconnect stJoinedA (some ⟨"uA", "alice@example.com"⟩) "sA").userRooms
        "uA" = none
    ∧ "sA" ∈ roomMembers
        (handleDisconnect stJoinedA (some ⟨"uA", "alice@example.com"⟩) "sA").rooms
        "whiteboard:b1" := by
  refine ⟨rfl, ?_⟩
  decide

end DrawTogether
